import Mathlib

/-!
Verification of the AURIX reconciliation core (aurix/engine.py, aurix/config.py,
aurix/ai/ml_anomaly.py, aurix/ai/forecasting.py) against its specification.

Modelling conventions:
* pandas float64 columns are modelled by `ℚ` (exact arithmetic; the spec's
  tolerance comparisons and the test fixtures use exact decimal values);
* a nullable numeric cell (NaN) is `Option ℚ`; `fillna(0)` and NaN-skipping
  sums become `Option.getD`/`filterMap` followed by `List.sum`;
* a pandas table is a `List` of row structures, one field per column;
* Python exceptions are modelled with `Except String`;
* all definitions are computable so concrete runs can be checked by `decide`.
-/

/-- Reconciliation status enum (config.py `ReconciliationStatus`).  The
decorative display strings are irrelevant to the engine's logic; the enum
carries the five states. -/
inductive RStatus where
  | MATCHED
  | VARIANCE
  | UNMATCHED_MANUAL
  | UNMATCHED_DAFTRA
  | TOLERANCE
deriving DecidableEq, Repr

/-- One cleaned manual-journal row (output schema of `clean_manual_data`).
`tanggal` is the parsed date as (year-month index, day); `none` is NaT.
Numeric cells are `Option ℚ` because `pd.to_numeric(errors='coerce')` can
produce NaN. -/
structure ManualRow where
  tanggal : Option (ℤ × ℤ)
  coaDaftra : Option ℚ
  coaName : String
  debit : Option ℚ
  kredit : Option ℚ
  nilai : Option ℚ
  uraian : String
  refNo : String
  rowId : ℕ
deriving DecidableEq, Repr

/-- One cleaned Daftra/ERP row (output schema of `clean_daftra_data`). -/
structure DaftraRow where
  date : Option (ℤ × ℤ)
  accountCode : Option ℚ
  account : String
  debit : Option ℚ
  credit : Option ℚ
  nilai : Option ℚ
  description : String
  number : String
  rowId : ℕ
deriving DecidableEq, Repr

/-- One row of the account-level reconciliation table produced by
`reconcile_coa_level` (engine.py lines 97-149): merged aggregates, variance
columns, status and resolved display name. -/
structure ReconRow where
  COA : ℚ
  Manual_Debit : ℚ
  Manual_Credit : ℚ
  Manual_Net : ℚ
  Manual_TxnCount : ℕ
  COA_Name : Option String
  Daftra_Debit : ℚ
  Daftra_Credit : ℚ
  Daftra_Net : ℚ
  Daftra_TxnCount : ℕ
  Daftra_Account : Option String
  Debit_Variance : ℚ
  Credit_Variance : ℚ
  Net_Variance : ℚ
  Abs_Variance : ℚ
  Status : RStatus
  Account_Name : Option String
deriving DecidableEq, Repr

/-- Absolute value on ℚ written as an executable conditional (the model of
pandas `.abs()` and Python `abs(...)`); `ratAbs_eq` identifies it with
Mathlib's `|·|`. -/
def ratAbs (q : ℚ) : ℚ := if q < 0 then -q else q

/-- Status classification (engine.py lines 135-145, `determine_status`).
After the `fillna(0)` pass on lines 127-128 the `Manual_Net`/`Daftra_Net`
cells can no longer be NaN, so the `pd.isna(...)` disjuncts of the source
are unsatisfiable in the rational model; the live presence test is the
transaction count being zero.  The net arguments are kept to mirror the
source's row access. -/
def determine_status (tol : ℚ) (mNet : ℚ) (mCount : ℕ) (dNet : ℚ)
    (dCount : ℕ) (netVariance : ℚ) : RStatus :=
  if mCount = 0 then RStatus.UNMATCHED_DAFTRA
  else if dCount = 0 then RStatus.UNMATCHED_MANUAL
  else if ratAbs netVariance ≤ tol then
    (if netVariance = 0 then RStatus.MATCHED else RStatus.TOLERANCE)
  else RStatus.VARIANCE

/-- First-occurrence deduplication with an accumulator of already-seen
values; models the set of distinct `groupby` keys.  (pandas additionally
sorts group keys, but no verified property depends on key order: the final
table order is fixed by the `Abs_Variance` sort.) -/
def uniqueKeysAux {α : Type} [DecidableEq α] (seen : List α) : List α → List α
  | [] => []
  | a :: t =>
      if a ∈ seen then uniqueKeysAux seen t
      else a :: uniqueKeysAux (a :: seen) t

/-- Distinct values of a list, first occurrence first. -/
def uniqueKeys {α : Type} [DecidableEq α] (l : List α) : List α :=
  uniqueKeysAux [] l

/-- The manual-side group of an account code (`df_manual.groupby('COA Daftra')`);
rows whose key cell is NaN belong to no group, which the `= some c` test
reproduces. -/
def manualGroup (m : List ManualRow) (c : ℚ) : List ManualRow :=
  m.filter (fun x => x.coaDaftra = some c)

/-- The Daftra-side group of an account code (`df_daftra.groupby('Account Code')`). -/
def daftraGroup (d : List DaftraRow) (c : ℚ) : List DaftraRow :=
  d.filter (fun x => x.accountCode = some c)

/-- NaN-skipping column sum (pandas `groupby(...).agg('sum')`); an absent or
all-NaN side sums to `0`, which also realises the later `fillna(0)`. -/
def optSum (l : List (Option ℚ)) : ℚ :=
  (l.filterMap id).sum

/-- Builds the merged account row for one account code: the `agg` dicts of
engine.py lines 97-119, the outer merge of line 121, the `fillna(0)` of
lines 127-128 (absent side contributes empty groups, hence zero sums and
counts), the variance columns of lines 130-133, the status of line 147 and
the `Account_Name` fallback of line 149. -/
def mkReconRow (tol : ℚ) (m : List ManualRow) (d : List DaftraRow) (c : ℚ) :
    ReconRow :=
  let mg := manualGroup m c
  let dg := daftraGroup d c
  let mDebit := optSum (mg.map (fun x => x.debit))
  let mCredit := optSum (mg.map (fun x => x.kredit))
  let mNet := optSum (mg.map (fun x => x.nilai))
  let mCount := mg.length
  let mName := mg.head?.map (fun x => x.coaName)
  let dDebit := optSum (dg.map (fun x => x.debit))
  let dCredit := optSum (dg.map (fun x => x.credit))
  let dNet := optSum (dg.map (fun x => x.nilai))
  let dCount := dg.length
  let dName := dg.head?.map (fun x => x.account)
  let netVar := mNet - dNet
  { COA := c
    Manual_Debit := mDebit
    Manual_Credit := mCredit
    Manual_Net := mNet
    Manual_TxnCount := mCount
    COA_Name := mName
    Daftra_Debit := dDebit
    Daftra_Credit := dCredit
    Daftra_Net := dNet
    Daftra_TxnCount := dCount
    Daftra_Account := dName
    Debit_Variance := mDebit - dDebit
    Credit_Variance := mCredit - dCredit
    Net_Variance := netVar
    Abs_Variance := ratAbs netVar
    Status := determine_status tol mNet mCount dNet dCount netVar
    Account_Name := mName.orElse (fun _ => dName) }

/-- Account-level reconciliation (engine.py `reconcile_coa_level`): one row
per account code in the union of both sources (outer merge: manual keys,
then Daftra-only keys), sorted by `Abs_Variance` descending (line 148).
pandas' default quicksort is replaced by insertion sort; the claims only
constrain sortedness, not the order of ties. -/
def reconcile_coa_level (tol : ℚ) (m : List ManualRow) (d : List DaftraRow) :
    List ReconRow :=
  let mKeys := uniqueKeys (m.filterMap (fun x => x.coaDaftra))
  let dKeys := uniqueKeys (d.filterMap (fun x => x.accountCode))
  let keys := mKeys ++ dKeys.filter (fun c => ¬ c ∈ mKeys)
  List.insertionSort (fun a b => b.Abs_Variance ≤ a.Abs_Variance)
    (keys.map (mkReconRow tol m d))

/-- The summary dict built by `generate_variance_summary` (engine.py lines
197-222).  The five status counts are structure fields, realising the
`status_counts.get(..., 0)` defaulting: the summary always carries all five. -/
structure VarianceSummary where
  total_coa_accounts : ℕ
  matched_count : ℕ
  tolerance_count : ℕ
  variance_count : ℕ
  unmatched_manual : ℕ
  unmatched_daftra : ℕ
  total_manual_debit : ℚ
  total_manual_credit : ℚ
  total_daftra_debit : ℚ
  total_daftra_credit : ℚ
  total_debit_variance : ℚ
  total_credit_variance : ℚ
  total_net_variance : ℚ
  largest_variance_coa : Option ℚ
  largest_variance_amount : ℚ
deriving DecidableEq, Repr

/-- Variance summary over an account-reconciliation table
(`value_counts().to_dict()` plus `.get(status, 0)` is the per-status count;
`iloc[0]` on a non-empty table is `head?`, with `None`/`0` on empty). -/
def generate_variance_summary (l : List ReconRow) : VarianceSummary :=
  let tmd := (l.map (fun r => r.Manual_Debit)).sum
  let tmc := (l.map (fun r => r.Manual_Credit)).sum
  let tdd := (l.map (fun r => r.Daftra_Debit)).sum
  let tdc := (l.map (fun r => r.Daftra_Credit)).sum
  { total_coa_accounts := l.length
    matched_count := l.countP (fun r => r.Status = RStatus.MATCHED)
    tolerance_count := l.countP (fun r => r.Status = RStatus.TOLERANCE)
    variance_count := l.countP (fun r => r.Status = RStatus.VARIANCE)
    unmatched_manual := l.countP (fun r => r.Status = RStatus.UNMATCHED_MANUAL)
    unmatched_daftra := l.countP (fun r => r.Status = RStatus.UNMATCHED_DAFTRA)
    total_manual_debit := tmd
    total_manual_credit := tmc
    total_daftra_debit := tdd
    total_daftra_credit := tdc
    total_debit_variance := tmd - tdd
    total_credit_variance := tmc - tdc
    total_net_variance := (l.map (fun r => r.Net_Variance)).sum
    largest_variance_coa := l.head?.map (fun r => r.COA)
    largest_variance_amount := (l.head?.map (fun r => r.Abs_Variance)).getD 0 }

/-- A Daftra-only fixture row (account 4001, taken from the repository's
test fixtures) used to witness the unmatched branch of C1. -/
def dRowOnly : DaftraRow :=
  { date := some (202403, 1), accountCode := some 4001, account := "Receivable"
    debit := some 800, credit := some 0, nilai := some 800
    description := "Invoice X", number := "DE-004", rowId := 1 }

/-- Manual-journal fixture for the end-to-end scenario of C7: account 1001
three times with debits 1000/500/200, credit 0, signed mutation value equal
to debit − credit (as in the repository's test fixture). -/
def manualFixture : List ManualRow :=
  [ { tanggal := some (202401, 15), coaDaftra := some 1001, coaName := "Cash"
      debit := some 1000, kredit := some 0, nilai := some 1000
      uraian := "Deposit A", refNo := "MJ-001", rowId := 1 }
  , { tanggal := some (202401, 16), coaDaftra := some 1001, coaName := "Cash"
      debit := some 500, kredit := some 0, nilai := some 500
      uraian := "Deposit B", refNo := "MJ-002", rowId := 2 }
  , { tanggal := some (202401, 20), coaDaftra := some 1001, coaName := "Cash"
      debit := some 200, kredit := some 0, nilai := some 200
      uraian := "Deposit C", refNo := "MJ-006", rowId := 3 } ]

/-- ERP-side fixture for C7: account 1001 twice with debits 1000/500. -/
def daftraFixture : List DaftraRow :=
  [ { date := some (202401, 15), accountCode := some 1001, account := "Cash"
      debit := some 1000, credit := some 0, nilai := some 1000
      description := "Deposit A", number := "DE-001", rowId := 1 }
  , { date := some (202401, 16), accountCode := some 1001, account := "Cash"
      debit := some 500, credit := some 0, nilai := some 500
      description := "Deposit B", number := "DE-002", rowId := 2 } ]

/-- A raw numeric cell before `pd.to_numeric(errors='coerce')`: missing
(NaN), a numeric value, a numeric-looking string (e.g. "200.00"), or a
non-numeric string. -/
inductive NumCell where
  | na
  | num (q : ℚ)
  | numStr (q : ℚ)
  | badStr (s : String)
deriving DecidableEq, Repr

/-- The cell-level model of `pd.to_numeric(errors='coerce')`: numeric and
numeric-string cells keep their value, everything else becomes missing —
never an error. -/
def toNumeric : NumCell → Option ℚ
  | NumCell.na => none
  | NumCell.num q => some q
  | NumCell.numStr q => some q
  | NumCell.badStr _ => none

/-- A raw date cell: missing (NaN/None), a parseable date (year-month and
day), or a present but unparseable string. -/
inductive DateCell where
  | na
  | valid (ym : ℤ) (day : ℤ)
  | invalid (s : String)
deriving DecidableEq, Repr

/-- Tests whether a date cell is present but unparseable; on such a cell
`pd.to_datetime` (default `errors='raise'`) raises `ValueError`. -/
def isUnparseable : DateCell → Bool
  | DateCell.invalid _ => true
  | _ => false

/-- Message carried by the `pd.to_datetime` exception. -/
def dateErrMsg : DateCell → String
  | DateCell.invalid s => s
  | _ => ""

/-- Parsed value of a date cell (`pd.to_datetime` maps NaN to NaT). -/
def dateVal : DateCell → Option (ℤ × ℤ)
  | DateCell.valid ym day => some (ym, day)
  | _ => none

/-- One raw manual-journal row (the columns of `clean_manual_data`'s
whitelist that the engine later reads; the purely pass-through text columns
are carried as strings).  Selecting the column whitelist is a schema
operation orthogonal to the row-level cleaning the claims are about. -/
structure RawManualRow where
  tanggal : DateCell
  coaDaftra : NumCell
  coaName : String
  debit : NumCell
  kredit : NumCell
  nilai : NumCell
  uraian : String
  refNo : String
deriving DecidableEq, Repr

/-- One raw Daftra-export row. -/
structure RawDaftraRow where
  date : DateCell
  accountCode : NumCell
  account : String
  debit : NumCell
  credit : NumCell
  nilai : NumCell
  description : String
  number : String
deriving DecidableEq, Repr

/-- Pairs each element with its 1-based position, mirroring
`range(1, len(df) + 1)`. -/
def numberFrom {α : Type} (k : ℕ) : List α → List (ℕ × α)
  | [] => []
  | a :: t => (k, a) :: numberFrom (k + 1) t

/-- Cleaned row built from a surviving raw manual row and its row id. -/
def cleanManualRow (i : ℕ) (r : RawManualRow) : ManualRow :=
  { tanggal := dateVal r.tanggal
    coaDaftra := toNumeric r.coaDaftra
    coaName := r.coaName
    debit := toNumeric r.debit
    kredit := toNumeric r.kredit
    nilai := toNumeric r.nilai
    uraian := r.uraian
    refNo := r.refNo
    rowId := i }

/-- Cleaned row built from a surviving raw Daftra row and its row id. -/
def cleanDaftraRow (i : ℕ) (r : RawDaftraRow) : DaftraRow :=
  { date := dateVal r.date
    accountCode := toNumeric r.accountCode
    account := r.account
    debit := toNumeric r.debit
    credit := toNumeric r.credit
    nilai := toNumeric r.nilai
    description := r.description
    number := r.number
    rowId := i }

/-- Cleaning of the manual journal (engine.py lines 30-56):
`dropna(subset=['Tanggal'])` removes exactly the rows with a missing date;
`pd.to_numeric(..., errors='coerce')` null-coerces the numeric columns
without error; `pd.to_datetime` (line 48, default `errors='raise'`) raises
on the first present-but-unparseable date, modelled as `Except.error`;
`_row_id` is `range(1, len+1)` over the surviving rows in order. -/
def clean_manual_data (rows : List RawManualRow) :
    Except String (List ManualRow) :=
  let kept := rows.filter (fun r => ¬ r.tanggal = DateCell.na)
  match kept.find? (fun r => isUnparseable r.tanggal) with
  | some r => Except.error (dateErrMsg r.tanggal)
  | none => Except.ok ((numberFrom 1 kept).map (fun p => cleanManualRow p.1 p.2))

/-- Cleaning of the Daftra export (engine.py lines 58-84), structurally
identical to `clean_manual_data` over the Daftra schema. -/
def clean_daftra_data (rows : List RawDaftraRow) :
    Except String (List DaftraRow) :=
  let kept := rows.filter (fun r => ¬ r.date = DateCell.na)
  match kept.find? (fun r => isUnparseable r.date) with
  | some r => Except.error (dateErrMsg r.date)
  | none => Except.ok ((numberFrom 1 kept).map (fun p => cleanDaftraRow p.1 p.2))

/-- A raw manual row whose date cell is present but unparseable. -/
def badDateRow : RawManualRow :=
  { tanggal := DateCell.invalid "not-a-date", coaDaftra := NumCell.num 1001
    coaName := "Cash", debit := NumCell.num 100, kredit := NumCell.num 0
    nilai := NumCell.num 100, uraian := "Bad date", refNo := "MJ-009" }

/-- A raw manual row with a parseable date and a non-numeric debit cell. -/
def goodManualRow : RawManualRow :=
  { tanggal := DateCell.valid 202401 15, coaDaftra := NumCell.num 1001
    coaName := "Cash", debit := NumCell.badStr "n/a", kredit := NumCell.num 0
    nilai := NumCell.numStr 200, uraian := "Deposit", refNo := "MJ-001" }

/-- A raw manual row with a missing date, to be dropped by cleaning. -/
def naManualRow : RawManualRow :=
  { tanggal := DateCell.na, coaDaftra := NumCell.num 9999
    coaName := "Ghost", debit := NumCell.num 100, kredit := NumCell.num 0
    nilai := NumCell.num 100, uraian := "Null date row", refNo := "MJ-005" }

/-- One anomaly finding (the dict shape produced by both detectors in
ml_anomaly.py); `coa` is `none` when the source row's account code is NaN
(the Python "N/A" case), `method` is the detection-method tag. -/
structure Finding where
  severity : String
  typ : String
  coa : Option ℤ
  amount : ℚ
  method : String
deriving DecidableEq, Repr

/-- Severity rank used by `detect_all` (ml_anomaly.py line 114 and the
`.get(..., 3)` defaults of lines 117 and 120). -/
def severity_rank (s : String) : ℕ :=
  if s = "HIGH" then 0 else if s = "MEDIUM" then 1 else if s = "LOW" then 2 else 3

/-- Deduplication key of a finding (ml_anomaly.py line 116). -/
def fkey (a : Finding) : Option ℤ × String := (a.coa, a.method)

/-- Python-dict lookup in the insertion-ordered association list `seen`. -/
def lookupF (k : Option ℤ × String) :
    List ((Option ℤ × String) × Finding) → Option Finding
  | [] => none
  | p :: t => if p.1 = k then some p.2 else lookupF k t

/-- Python-dict assignment `seen[key] = v`: replaces in place when the key
exists, appends at the end when it does not. -/
def setF (k : Option ℤ × String) (v : Finding) :
    List ((Option ℤ × String) × Finding) → List ((Option ℤ × String) × Finding)
  | [] => [(k, v)]
  | p :: t => if p.1 = k then (k, v) :: t else p :: setF k v t

/-- One iteration of the dedup loop of `detect_all` (ml_anomaly.py lines
115-118): keep the first entry per key unless a strictly higher-severity
(lower-rank) one arrives. -/
def updateSeen (seen : List ((Option ℤ × String) × Finding)) (a : Finding) :
    List ((Option ℤ × String) × Finding) :=
  match lookupF (fkey a) seen with
  | none => setF (fkey a) a seen
  | some b =>
      if severity_rank a.severity < severity_rank b.severity then
        setF (fkey a) a seen
      else seen

/-- The merge step of `detect_all` (ml_anomaly.py lines 105-121): concatenate
the z-score and isolation-forest findings, deduplicate by (coa, method)
keeping the higher-severity instance, sort by severity rank (Python's
`sorted` is a stable sort; insertion sort here), truncate to the top 15.
The isolation-forest detector itself wraps `sklearn.IsolationForest` and is
left as an arbitrary finding list. -/
def detect_all (z iso : List Finding) : List Finding :=
  (List.insertionSort (fun a b => severity_rank a.severity ≤ severity_rank b.severity)
    (((z ++ iso).foldl updateSeen []).map (fun p => p.2))).take 15

/-- Invariant of the dedup loop: `seen` (the Python dict as an
insertion-ordered association list) has pairwise-distinct keys, each entry
is stored under its own key, comes from the processed prefix, and is of
minimal severity rank among the processed findings with its key; every
processed key is represented. -/
def SeenOK (proc : List Finding)
    (seen : List ((Option ℤ × String) × Finding)) : Prop :=
  seen.Pairwise (fun p q => ¬ p.1 = q.1)
  ∧ (∀ p ∈ seen, fkey p.2 = p.1)
  ∧ (∀ p ∈ seen, p.2 ∈ proc)
  ∧ (∀ p ∈ seen, ∀ b ∈ proc, fkey b = p.1 →
      severity_rank p.2.severity ≤ severity_rank b.severity)
  ∧ (∀ b ∈ proc, ∃ p ∈ seen, p.1 = fkey b)

/-- A MEDIUM z-score finding for account 1001. -/
def findingA : Finding :=
  { severity := "MEDIUM", typ := "Z-Score Outlier (Net_Variance)"
    coa := some 1001, amount := 500, method := "z_score" }

/-- A HIGH z-score finding for account 1001, same dedup key as `findingA`. -/
def findingB : Finding :=
  { severity := "HIGH", typ := "Z-Score Outlier (Net_Variance)"
    coa := some 1001, amount := 500, method := "z_score" }

/-- Column mean, `Series.mean()`. -/
def mean (l : List ℚ) : ℚ := l.sum / l.length

/-- Sample variance with divisor n − 1: the square of pandas
`Series.std()`, whose default is `ddof=1` (sample standard deviation), not
the population divisor n. -/
def sampleVar (l : List ℚ) : ℚ :=
  (l.map (fun x => (x - mean l) ^ 2)).sum / ((l.length : ℚ) - 1)

/-- The per-column body of `detect_zscore_anomalies` (ml_anomaly.py lines
23-37): drop missing values, skip the column when fewer than 3 values
remain or the standard deviation is zero, otherwise flag the values with
`|(x − mean)/std| > threshold`.  Since `std = √(sampleVar)` is irrational,
the flag test is written as the equivalent rational comparison
`sampleVar·t² < (x − mean)² ∨ t < 0` (the equivalence for positive variance
is proved in `abs_div_sqrt_gt_iff`); `std == 0` is exactly
`sampleVar = 0`. -/
def zscoreOutliers (threshold : ℚ) (col : List (Option ℚ)) : List ℚ :=
  if (col.filterMap id).length < 3 then []
  else if sampleVar (col.filterMap id) = 0 then []
  else
    (col.filterMap id).filter (fun x =>
      sampleVar (col.filterMap id) * threshold ^ 2
          < (x - mean (col.filterMap id)) ^ 2
        ∨ threshold < 0)

/-- One row of the monthly variance table built by
`aggregate_monthly_variances` (forecasting.py lines 11-58); `yearMonth` is
the month period index. -/
structure MonthlyRow where
  yearMonth : ℤ
  total_abs_variance : ℚ
  total_net_variance : ℚ
  variance_count : ℕ
  matched_count : ℕ
  total_coa : ℕ
  match_rate : ℚ
deriving DecidableEq, Repr

/-- Per-account net variances of one month slice (forecasting.py lines
31-42): group both slices by account code, outer-merge, `fillna(0)`, and
take `M_Net − D_Net` per account. -/
def monthNetVariances (ms : List ManualRow) (ds : List DaftraRow) : List ℚ :=
  let mKeys := uniqueKeys (ms.filterMap (fun x => x.coaDaftra))
  let dKeys := uniqueKeys (ds.filterMap (fun x => x.accountCode))
  let keys := mKeys ++ dKeys.filter (fun c => ¬ c ∈ mKeys)
  keys.map (fun c =>
    optSum ((manualGroup ms c).map (fun x => x.nilai)) -
      optSum ((daftraGroup ds c).map (fun x => x.nilai)))

/-- Monthly aggregation (forecasting.py `aggregate_monthly_variances`):
bucket both cleaned tables by year-month (`to_period('M')`; a NaT date
belongs to no bucket), iterate the sorted distinct months, and record the
per-month variance aggregates with the fixed tolerance 1.0 used only inside
this forecast context.  The unused per-month debit/credit aggregates of the
source are not carried into the records it returns. -/
def aggregate_monthly (m : List ManualRow) (d : List DaftraRow) :
    List MonthlyRow :=
  let months := List.insertionSort (fun a b => a ≤ b)
    (uniqueKeys ((m.filterMap (fun r => r.tanggal.map Prod.fst)) ++
      (d.filterMap (fun r => r.date.map Prod.fst))))
  months.map (fun ym =>
    let ms := m.filter (fun r => r.tanggal.map Prod.fst = some ym)
    let ds := d.filter (fun r => r.date.map Prod.fst = some ym)
    let nets := monthNetVariances ms ds
    let absl := nets.map ratAbs
    { yearMonth := ym
      total_abs_variance := absl.sum
      total_net_variance := nets.sum
      variance_count := (absl.filter (fun v => 1 < v)).length
      matched_count := (absl.filter (fun v => v ≤ 1)).length
      total_coa := nets.length
      match_rate :=
        if 0 < nets.length then
          ((absl.filter (fun v => v ≤ 1)).length : ℚ) / (nets.length : ℚ) * 100
        else 0 })

/-- Month indices 0..n−1 as rationals: the regressor `np.arange(len(y))` of
`forecast_linear`. -/
def xIdx (n : ℕ) : List ℚ := (List.range n).map (fun i => (i : ℚ))

/-- Ordinary-least-squares slope of y against 0..n−1: the closed form of
`sklearn.LinearRegression().fit(X, y).coef_[0]` in exact arithmetic. -/
def olsSlope (y : List ℚ) : ℚ :=
  (((xIdx y.length).zip y).map
      (fun p => (p.1 - mean (xIdx y.length)) * (p.2 - mean y))).sum /
    ((xIdx y.length).map (fun v => (v - mean (xIdx y.length)) ^ 2)).sum

/-- Fitted-line prediction at index v (`model.predict`). -/
def olsPredict (y : List ℚ) (v : ℚ) : ℚ :=
  (mean y - olsSlope y * mean (xIdx y.length)) + olsSlope y * v

/-- Coefficient of determination R² (`model.score`): 1 − SSres/SStot. -/
def olsR2 (y : List ℚ) : ℚ :=
  1 - (((xIdx y.length).zip y).map (fun p => (p.2 - olsPredict y p.1) ^ 2)).sum /
    (y.map (fun v => (v - mean y) ^ 2)).sum

/-- The forecast result record (the dict of forecasting.py lines 107-113);
months are carried as period indices. -/
structure ForecastData where
  historical : List (ℤ × ℚ)
  forecastVals : List (ℤ × ℚ)
  trend_direction : String
  slope : ℚ
  r_squared : ℚ
deriving DecidableEq, Repr

/-- Linear forecast (forecasting.py `forecast_linear`): with fewer than 3
monthly rows, the explicit error marker (the `{"error": ...}` dict) is
returned, never an exception; otherwise an OLS line is fitted on the month
index, the trend is labelled (stable when `|slope| < mean·0.01`), and each
projected value is floored at 0 with `max(0, ...)`. -/
def forecast_linear (monthly : List MonthlyRow) (target : MonthlyRow → ℚ)
    (periods_ahead : ℕ) : Except String ForecastData :=
  if monthly.length < 3 then
    Except.error "Insufficient data (need at least 3 months)"
  else
    Except.ok
      { historical := monthly.map (fun r => (r.yearMonth, target r))
        forecastVals := (List.range periods_ahead).map (fun j =>
          (((monthly.getLast?.map (fun r => r.yearMonth)).getD 0) + (j + 1 : ℤ),
            max 0 (olsPredict (monthly.map target)
              (((monthly.map target).length : ℚ) + (j : ℚ)))))
        trend_direction :=
          if ratAbs (olsSlope (monthly.map target)) <
              mean (monthly.map target) * (1 / 100) then "stable"
          else if 0 < olsSlope (monthly.map target) then "increasing"
          else "decreasing"
        slope := olsSlope (monthly.map target)
        r_squared := olsR2 (monthly.map target) }

/-- Three months of history with total absolute variances 1, 2, 3. -/
def sampleMonthly : List MonthlyRow :=
  [ { yearMonth := 1, total_abs_variance := 1, total_net_variance := 1
      variance_count := 0, matched_count := 1, total_coa := 1, match_rate := 100 }
  , { yearMonth := 2, total_abs_variance := 2, total_net_variance := 2
      variance_count := 1, matched_count := 0, total_coa := 1, match_rate := 0 }
  , { yearMonth := 3, total_abs_variance := 3, total_net_variance := 3
      variance_count := 1, matched_count := 0, total_coa := 1, match_rate := 0 } ]

/-- The forecast produced on `sampleMonthly` (used only by the witness). -/
def sampleOut : ForecastData :=
  match forecast_linear sampleMonthly (fun r => r.total_abs_variance) 1 with
  | Except.ok r => r
  | Except.error _ => { historical := [], forecastVals := []
                        trend_direction := "", slope := 0, r_squared := 0 }

/-- 32-bit word arithmetic for SHA-256: all values are naturals reduced
modulo 2^32. -/
def w32 : ℕ := 4294967296

/-- Right rotation of a 32-bit word by k bits. -/
def rotr (k n : ℕ) : ℕ := ((n >>> k) ||| (n <<< (32 - k))) % w32

/-- Bitwise complement of a 32-bit word. -/
def not32 (n : ℕ) : ℕ := n ^^^ (w32 - 1)

/-- SHA-256 message-schedule sigma-0. -/
def ssig0 (n : ℕ) : ℕ := rotr 7 n ^^^ rotr 18 n ^^^ (n >>> 3)

/-- SHA-256 message-schedule sigma-1. -/
def ssig1 (n : ℕ) : ℕ := rotr 17 n ^^^ rotr 19 n ^^^ (n >>> 10)

/-- SHA-256 compression Sigma-0. -/
def bsig0 (n : ℕ) : ℕ := rotr 2 n ^^^ rotr 13 n ^^^ rotr 22 n

/-- SHA-256 compression Sigma-1. -/
def bsig1 (n : ℕ) : ℕ := rotr 6 n ^^^ rotr 11 n ^^^ rotr 25 n

/-- SHA-256 choice function. -/
def sha256ch (e f g : ℕ) : ℕ := (e &&& f) ^^^ (not32 e &&& g)

/-- SHA-256 majority function. -/
def sha256maj (a b c : ℕ) : ℕ := (a &&& b) ^^^ (a &&& c) ^^^ (b &&& c)

/-- The 64 SHA-256 round constants. -/
def sha256K : List ℕ :=
  [1116352408, 1899447441, 3049323471, 3921009573,
   961987163, 1508970993, 2453635748, 2870763221,
   3624381080, 310598401, 607225278, 1426881987,
   1925078388, 2162078206, 2614888103, 3248222580,
   3835390401, 4022224774, 264347078, 604807628,
   770255983, 1249150122, 1555081692, 1996064986,
   2554220882, 2821834349, 2952996808, 3210313671,
   3336571891, 3584528711, 113926993, 338241895,
   666307205, 773529912, 1294757372, 1396182291,
   1695183700, 1986661051, 2177026350, 2456956037,
   2730485921, 2820302411, 3259730800, 3345764771,
   3516065817, 3600352804, 4094571909, 275423344,
   430227734, 506948616, 659060556, 883997877,
   958139571, 1322822218, 1537002063, 1747873779,
   1955562222, 2024104815, 2227730452, 2361852424,
   2428436474, 2756734187, 3204031479, 3329325298]

/-- The SHA-256 initial hash value. -/
def sha256H0 : List ℕ :=
  [1779033703, 3144134277, 1013904242, 2773480762,
   1359893119, 2600822924, 528734635, 1541459225]

/-- Big-endian 4-byte groups to 32-bit words. -/
def bytesToWords : List ℕ → List ℕ
  | b0 :: b1 :: b2 :: b3 :: rest =>
      (((b0 * 256 + b1) * 256 + b2) * 256 + b3) :: bytesToWords rest
  | _ => []

/-- Big-endian 8-byte encoding of a length value. -/
def lenBytes8 (n : ℕ) : List ℕ :=
  (List.range 8).map (fun i => (n >>> ((7 - i) * 8)) % 256)

/-- SHA-256 padding: append 0x80, zero bytes to 56 mod 64, and the 64-bit
big-endian bit length. -/
def sha256pad (msg : List ℕ) : List ℕ :=
  msg ++ [128] ++ List.replicate ((119 - msg.length % 64) % 64) 0
    ++ lenBytes8 (msg.length * 8)

/-- Split into 64-byte chunks (fuel-driven structural recursion). -/
def chunk64 (fuel : ℕ) (l : List ℕ) : List (List ℕ) :=
  match fuel with
  | 0 => []
  | fuel + 1 =>
      match l with
      | [] => []
      | _ => l.take 64 :: chunk64 fuel (l.drop 64)

/-- Extends the 16 block words to the 64-entry message schedule. -/
def sha256schedule (w16 : List ℕ) : List ℕ :=
  (List.range 48).foldl
    (fun w _ =>
      w ++ [(ssig1 (w.getD (w.length - 2) 0) + w.getD (w.length - 7) 0 +
        ssig0 (w.getD (w.length - 15) 0) + w.getD (w.length - 16) 0) % w32])
    w16

/-- One SHA-256 compression round. -/
def sha256round (w : List ℕ) (st : List ℕ) (i : ℕ) : List ℕ :=
  match st with
  | [a, b, c, d, e, f, g, h] =>
      let t1 := (h + bsig1 e + sha256ch e f g + sha256K.getD i 0 +
        w.getD i 0) % w32
      let t2 := (bsig0 a + sha256maj a b c) % w32
      [(t1 + t2) % w32, a, b, c, (d + t1) % w32, e, f, g]
  | st => st

/-- Compression of one 64-byte block into the running hash. -/
def sha256compress (h : List ℕ) (block : List ℕ) : List ℕ :=
  let w := sha256schedule (bytesToWords block)
  let fin := (List.range 64).foldl (sha256round w) h
  (h.zip fin).map (fun p => (p.1 + p.2) % w32)

/-- SHA-256 of a byte list, as eight 32-bit words. -/
def sha256words (msg : List ℕ) : List ℕ :=
  let padded := sha256pad msg
  (chunk64 padded.length padded).foldl sha256compress sha256H0

/-- Lowercase hexadecimal digit. -/
def hexDigit (n : ℕ) : Char :=
  if n < 10 then Char.ofNat (48 + n) else Char.ofNat (87 + n)

/-- Eight-hex-digit rendering of a 32-bit word. -/
def wordToHex (n : ℕ) : String :=
  String.mk ((List.range 8).map (fun i => hexDigit ((n >>> ((7 - i) * 4)) % 16)))

/-- The `hashlib.sha256(...).hexdigest()` of a string's UTF-8 bytes. -/
def sha256hex (s : String) : String :=
  String.join ((sha256words (s.toUTF8.toList.map (fun b => b.toNat))).map wordToHex)

/-- The serialized details payload: `json.dumps` of a string-valued JSON
object with insertion-ordered keys (`default=str` stringifies values, so the
model carries them as strings already; escaping is not modelled). -/
def jsonDumps (d : List (String × String)) : String :=
  "\x7b" ++ String.intercalate ", "
    (d.map (fun p => "\"" ++ p.1 ++ "\": \"" ++ p.2 ++ "\"")) ++ "\x7d"

/-- An audit log entry (config.py `AuditLogEntry`): timestamp, action,
details payload and user.  The checksum is not stored but computed by
`checksum`, the model of `__post_init__`. -/
structure AuditLogEntry where
  timestamp : String
  action : String
  details : List (String × String)
  user : String
deriving DecidableEq, Repr

/-- The checksum input `f"{timestamp}{action}{json.dumps(details)}{user}"`
of config.py line 48: plain concatenation with no field separators. -/
def auditContent (e : AuditLogEntry) : String :=
  e.timestamp ++ e.action ++ jsonDumps e.details ++ e.user

/-- The checksum of config.py line 49: the first 16 hex characters of the
SHA-256 digest of the concatenated content. -/
def checksum (e : AuditLogEntry) : String :=
  (sha256hex (auditContent e)).take 16

/-- Audit entry with timestamp "A" and action "B". -/
def entryA : AuditLogEntry :=
  { timestamp := "A", action := "B", details := [], user := "System" }

/-- Audit entry with timestamp "AB" and empty action: a different record
whose concatenated checksum input coincides with `entryA`'s. -/
def entryB : AuditLogEntry :=
  { timestamp := "AB", action := "", details := [], user := "System" }

theorem ratAbs_eq (q : ℚ) : ratAbs q = |q| := by
  rw [ratAbs]
  by_cases h : q < 0
  · rw [if_pos h, abs_of_neg h]
  · rw [if_neg h, abs_of_nonneg (le_of_not_lt h)]

theorem mem_uniqueKeysAux {α : Type} [DecidableEq α] (l : List α) :
    ∀ (seen : List α) (x : α),
      x ∈ uniqueKeysAux seen l ↔ x ∈ l ∧ ¬ x ∈ seen := by
  induction l with
  | nil => intro seen x; simp [uniqueKeysAux]
  | cons a t ih =>
      intro seen x
      by_cases ha : a ∈ seen
      · rw [uniqueKeysAux, if_pos ha, ih]
        simp only [List.mem_cons]
        constructor
        · rintro ⟨hx, hs⟩
          exact ⟨Or.inr hx, hs⟩
        · rintro ⟨rfl | hx, hs⟩
          · exact absurd ha hs
          · exact ⟨hx, hs⟩
      · rw [uniqueKeysAux, if_neg ha]
        simp only [List.mem_cons, ih]
        constructor
        · rintro (rfl | ⟨hx, hs⟩)
          · exact ⟨Or.inl rfl, ha⟩
          · exact ⟨Or.inr hx, fun hc => hs (Or.inr hc)⟩
        · rintro ⟨rfl | hx, hs⟩
          · exact Or.inl rfl
          · by_cases hxa : x = a
            · exact Or.inl hxa
            · exact Or.inr ⟨hx, fun hc => hc.elim hxa hs⟩

theorem mem_uniqueKeys {α : Type} [DecidableEq α] (l : List α) (x : α) :
    x ∈ uniqueKeys l ↔ x ∈ l := by
  simp [uniqueKeys, mem_uniqueKeysAux]

theorem recon_row_spec (tol : ℚ) (m : List ManualRow) (d : List DaftraRow)
    (r : ReconRow) (h : r ∈ reconcile_coa_level tol m d) :
    r.Manual_TxnCount = (manualGroup m r.COA).length ∧
    r.Daftra_TxnCount = (daftraGroup d r.COA).length ∧
    r.Status = determine_status tol r.Manual_Net r.Manual_TxnCount
      r.Daftra_Net r.Daftra_TxnCount r.Net_Variance ∧
    (r.COA ∈ m.filterMap (fun x => x.coaDaftra) ∨
     r.COA ∈ d.filterMap (fun x => x.accountCode)) := by
  unfold reconcile_coa_level at h
  rw [List.mem_insertionSort] at h
  rcases List.mem_map.mp h with ⟨c, hc, rfl⟩
  refine ⟨rfl, rfl, rfl, ?_⟩
  have hCOA : (mkReconRow tol m d c).COA = c := rfl
  rw [hCOA]
  rcases List.mem_append.mp hc with hc | hc
  · exact Or.inl ((mem_uniqueKeys _ _).mp hc)
  · exact Or.inr ((mem_uniqueKeys _ _).mp (List.mem_of_mem_filter hc))

/-- Claim C1, counterexample: the source nests the `Net_Variance == 0` MATCHED
test under `abs(Net_Variance) <= tolerance` (engine.py lines 140-143), so for
a negative tolerance a zero-variance matched-on-both-sides account is
classified VARIANCE, while the claim (quantified over every tolerance T)
demands MATCHED. -/
theorem c1_negative_tolerance_cex :
    determine_status (-1) 5 1 5 1 0 = RStatus.VARIANCE ∧
    ¬ determine_status (-1) 5 1 5 1 0 = RStatus.MATCHED := by
  have h : determine_status (-1) 5 1 5 1 0 = RStatus.VARIANCE := by
    norm_num [determine_status, ratAbs]
  exact ⟨h, by rw [h]; decide⟩

/-- Claim C1 (amended: for every tolerance T ≥ 0): the classification follows
the strict precedence manual-side-empty → UNMATCHED_DAFTRA, ERP-side-empty →
UNMATCHED_MANUAL, zero variance → MATCHED, |variance| ≤ T → TOLERANCE, else
VARIANCE; and in the merged table an account absent from the manual input is
always UNMATCHED_DAFTRA and one absent from the ERP input always
UNMATCHED_MANUAL, regardless of the variance arithmetic. -/
theorem c1_status_precedence :
    (∀ (tol mNet dNet nv : ℚ) (mc dc : ℕ), 0 ≤ tol →
        determine_status tol mNet mc dNet dc nv =
          (if mc = 0 then RStatus.UNMATCHED_DAFTRA
           else if dc = 0 then RStatus.UNMATCHED_MANUAL
           else if nv = 0 then RStatus.MATCHED
           else if |nv| ≤ tol then RStatus.TOLERANCE
           else RStatus.VARIANCE))
    ∧ (∀ (tol : ℚ) (m : List ManualRow) (d : List DaftraRow) (r : ReconRow),
        r ∈ reconcile_coa_level tol m d →
        ((∀ x ∈ m, ¬ x.coaDaftra = some r.COA) →
            r.Status = RStatus.UNMATCHED_DAFTRA) ∧
        ((∀ x ∈ d, ¬ x.accountCode = some r.COA) →
            r.Status = RStatus.UNMATCHED_MANUAL)) := by
  constructor
  · intro tol mNet dNet nv mc dc htol
    unfold determine_status
    rw [ratAbs_eq]
    by_cases hmc : mc = 0
    · simp [hmc]
    · by_cases hdc : dc = 0
      · simp [hmc, hdc]
      · by_cases hnv : nv = 0
        · have habs : |nv| ≤ tol := by rw [hnv, abs_zero]; exact htol
          simp [hmc, hdc, hnv, habs, htol]
        · by_cases ht : |nv| ≤ tol
          · simp [hmc, hdc, hnv, ht]
          · simp [hmc, hdc, hnv, ht]
  · intro tol m d r hr
    obtain ⟨hmc, hdc, hst, hkey⟩ := recon_row_spec tol m d r hr
    constructor
    · intro habs
      have h0 : manualGroup m r.COA = [] := by
        rw [manualGroup, List.filter_eq_nil_iff]
        intro x hx
        simp [habs x hx]
      rw [hst, hmc, h0]
      simp [determine_status]
    · intro habs
      have hd0 : daftraGroup d r.COA = [] := by
        rw [daftraGroup, List.filter_eq_nil_iff]
        intro x hx
        simp [habs x hx]
      have hm : r.COA ∈ m.filterMap (fun x => x.coaDaftra) := by
        rcases hkey with h | h
        · exact h
        · exfalso
          rcases List.mem_filterMap.mp h with ⟨x, hx, hxe⟩
          exact habs x hx hxe
      rcases List.mem_filterMap.mp hm with ⟨x, hx, hxe⟩
      have hmemg : x ∈ manualGroup m r.COA := by
        rw [manualGroup, List.mem_filter]
        exact ⟨hx, by simp [hxe]⟩
      have hpos : ¬ (manualGroup m r.COA).length = 0 := by
        intro he
        rw [List.length_eq_zero] at he
        simp [he] at hmemg
      rw [hst, hmc, hdc, hd0]
      simp [determine_status, hpos]

/-- Claim C1 witness: the amended precedence theorem applied at tolerance 1
with both sides present, and the unmatched branch applied to a concrete
one-account Daftra-only reconciliation. -/
theorem c1_status_precedence_witness :
    ((0 : ℚ) ≤ 1 ∧
      determine_status 1 7 3 5 2 2 =
        (if (3 : ℕ) = 0 then RStatus.UNMATCHED_DAFTRA
         else if (2 : ℕ) = 0 then RStatus.UNMATCHED_MANUAL
         else if (2 : ℚ) = 0 then RStatus.MATCHED
         else if |(2 : ℚ)| ≤ 1 then RStatus.TOLERANCE
         else RStatus.VARIANCE))
    ∧ (mkReconRow 1 [] [dRowOnly] 4001).Status = RStatus.UNMATCHED_DAFTRA := by
  refine ⟨⟨by norm_num, c1_status_precedence.1 1 7 5 2 3 2 (by norm_num)⟩, ?_⟩
  refine (c1_status_precedence.2 1 [] [dRowOnly] (mkReconRow 1 [] [dRowOnly] 4001)
    ?_).1 (by simp)
  norm_num [reconcile_coa_level, mkReconRow, uniqueKeys, uniqueKeysAux,
    manualGroup, daftraGroup, optSum, determine_status, ratAbs, dRowOnly,
    List.insertionSort, List.orderedInsert]

/-- Claim C4: the account-level output is sorted by `Abs_Variance` in
descending order, and the variance summary's largest-variance pointer is the
row at index 0 of the table it is given (its COA and its `Abs_Variance`),
with `none`/`0` on an empty table. -/
theorem c4_sorted_and_largest_pointer :
    (∀ (tol : ℚ) (m : List ManualRow) (d : List DaftraRow),
        (reconcile_coa_level tol m d).Pairwise
          (fun a b => b.Abs_Variance ≤ a.Abs_Variance))
    ∧ (∀ l : List ReconRow,
        (generate_variance_summary l).largest_variance_coa
            = l.head?.map (fun r => r.COA)
        ∧ (generate_variance_summary l).largest_variance_amount
            = (l.head?.map (fun r => r.Abs_Variance)).getD 0) := by
  constructor
  · intro tol m d
    haveI : IsTotal ReconRow (fun a b => b.Abs_Variance ≤ a.Abs_Variance) :=
      ⟨fun a b => le_total _ _⟩
    haveI : IsTrans ReconRow (fun a b => b.Abs_Variance ≤ a.Abs_Variance) :=
      ⟨fun _ _ _ h1 h2 => le_trans h2 h1⟩
    exact List.sorted_insertionSort _ _
  · intro l
    cases l <;> exact ⟨rfl, rfl⟩

/-- Claim C5: for every account-reconciliation table the five status counts
of the variance summary (all present as fields, defaulting to 0) sum to
`total_coa_accounts`. -/
theorem c5_status_counts_sum (l : List ReconRow) :
    (generate_variance_summary l).matched_count
      + (generate_variance_summary l).tolerance_count
      + (generate_variance_summary l).variance_count
      + (generate_variance_summary l).unmatched_manual
      + (generate_variance_summary l).unmatched_daftra
      = (generate_variance_summary l).total_coa_accounts := by
  show l.countP _ + l.countP _ + l.countP _ + l.countP _ + l.countP _ = l.length
  induction l with
  | nil => rfl
  | cons r t ih =>
      simp only [List.countP_cons, List.length_cons]
      rcases hs : r.Status <;> simp [hs] <;> omega

/-- Claim C7: on the three-row/two-row account-1001 scenario the account
level reconciliation yields Manual_Net = 1700, Daftra_Net = 1500,
Net_Variance = 200, status VARIANCE at the default tolerance 1, and status
WITHIN_TOLERANCE at tolerance 200. -/
theorem c7_end_to_end_scenario :
    (reconcile_coa_level 1 manualFixture daftraFixture).map
        (fun r => (r.COA, r.Manual_Net, r.Daftra_Net, r.Net_Variance, r.Status))
      = [(1001, 1700, 1500, 200, RStatus.VARIANCE)]
    ∧ (reconcile_coa_level 200 manualFixture daftraFixture).map
        (fun r => (r.COA, r.Status))
      = [(1001, RStatus.TOLERANCE)] := by
  constructor <;>
    norm_num [reconcile_coa_level, mkReconRow, uniqueKeys, uniqueKeysAux,
      manualGroup, daftraGroup, optSum, determine_status, ratAbs,
      manualFixture, daftraFixture, List.insertionSort, List.orderedInsert,
      List.filterMap_cons, List.filterMap_nil]

theorem numberFrom_map_fst {α : Type} (l : List α) :
    ∀ k, (numberFrom k l).map (fun p => p.1) = List.range' k l.length := by
  induction l with
  | nil => intro k; rfl
  | cons a t ih =>
      intro k
      simp only [numberFrom, List.map_cons, List.length_cons, List.range'_succ]
      rw [ih]

theorem numberFrom_length {α : Type} (l : List α) :
    ∀ k, (numberFrom k l).length = l.length := by
  induction l with
  | nil => intro k; rfl
  | cons a t ih => intro k; simp [numberFrom, ih]

/-- Claim C2 counterexample: a present but unparseable date is not silently
dropped — `pd.to_datetime` on line 48 of engine.py uses the default
`errors='raise'`, so cleaning raises `ValueError` (modelled as an error
result) instead of returning the empty cleaned table the claim predicts. -/
theorem c2_unparseable_date_cex :
    clean_manual_data [badDateRow] = Except.error "not-a-date" ∧
    ¬ clean_manual_data [badDateRow] = Except.ok [] := by
  have h : clean_manual_data [badDateRow] = Except.error "not-a-date" := rfl
  refine ⟨h, ?_⟩
  rw [h]
  exact fun hc => Except.noConfusion hc

/-- Claim C2 (amended): cleaning drops exactly the rows whose date field is
missing, preserving all other rows in original order with `row_id` 1..N;
non-numeric numeric cells are null-coerced, never an error; but a present,
unparseable date raises an exception (an error result) rather than being
dropped silently. -/
theorem c2_cleaning_amended :
    (∀ rows : List RawManualRow,
        (∀ r ∈ rows, isUnparseable r.tanggal = false) →
        clean_manual_data rows =
          Except.ok ((numberFrom 1
              (rows.filter (fun r => ¬ r.tanggal = DateCell.na))).map
            (fun p => cleanManualRow p.1 p.2)))
    ∧ (∀ (rows : List RawManualRow) (out : List ManualRow),
        clean_manual_data rows = Except.ok out →
        out.map (fun r => r.rowId) = List.range' 1 out.length)
    ∧ (∀ s : String,
        toNumeric (NumCell.badStr s) = none ∧ toNumeric NumCell.na = none) := by
  refine ⟨?_, ?_, fun s => ⟨rfl, rfl⟩⟩
  · intro rows h
    rw [clean_manual_data]
    have hfind :
        (rows.filter (fun r => ¬ r.tanggal = DateCell.na)).find?
          (fun r => isUnparseable r.tanggal) = none := by
      rw [List.find?_eq_none]
      intro x hx
      simp [h x (List.mem_of_mem_filter hx)]
    rw [hfind]
  · intro rows out h
    rw [clean_manual_data] at h
    rcases hf : (rows.filter (fun r => ¬ r.tanggal = DateCell.na)).find?
        (fun r => isUnparseable r.tanggal) with _ | r
    · rw [hf] at h
      have hout :
          out = (numberFrom 1
              (rows.filter (fun r => ¬ r.tanggal = DateCell.na))).map
            (fun p => cleanManualRow p.1 p.2) :=
        (Except.ok.injEq _ _).mp h.symm
      subst hout
      rw [List.map_map, List.length_map, numberFrom_length]
      have hcomp :
          ((fun r : ManualRow => r.rowId) ∘ fun p : ℕ × RawManualRow =>
            cleanManualRow p.1 p.2) = fun p : ℕ × RawManualRow => p.1 := rfl
      rw [hcomp, numberFrom_map_fst]
    · rw [hf] at h
      exact absurd h (fun hc => Except.noConfusion hc)

/-- Claim C2 witness: the amended cleaning theorem applied to a concrete
two-row table (one surviving row, one missing-date row). -/
theorem c2_cleaning_amended_witness :
    (∀ r ∈ [goodManualRow, naManualRow], isUnparseable r.tanggal = false)
    ∧ clean_manual_data [goodManualRow, naManualRow] =
        Except.ok ((numberFrom 1
            ([goodManualRow, naManualRow].filter
              (fun r => ¬ r.tanggal = DateCell.na))).map
          (fun p => cleanManualRow p.1 p.2)) :=
  ⟨by decide, c2_cleaning_amended.1 [goodManualRow, naManualRow] (by decide)⟩

theorem mem_setF (k : Option ℤ × String) (v : Finding)
    (l : List ((Option ℤ × String) × Finding)) (p : (Option ℤ × String) × Finding)
    (h : p ∈ setF k v l) : p = (k, v) ∨ p ∈ l := by
  induction l with
  | nil => simpa [setF] using h
  | cons q t ih =>
      rw [setF] at h
      by_cases hq : q.1 = k
      · rw [if_pos hq] at h
        rcases List.mem_cons.mp h with rfl | h
        · exact Or.inl rfl
        · exact Or.inr (List.mem_cons_of_mem _ h)
      · rw [if_neg hq] at h
        rcases List.mem_cons.mp h with rfl | h
        · exact Or.inr (List.mem_cons_self _ _)
        · rcases ih h with h | h
          · exact Or.inl h
          · exact Or.inr (List.mem_cons_of_mem _ h)

theorem mem_setF_cases (k : Option ℤ × String) (v : Finding)
    (l : List ((Option ℤ × String) × Finding))
    (hl : l.Pairwise (fun p q => ¬ p.1 = q.1))
    (p : (Option ℤ × String) × Finding) (h : p ∈ setF k v l) :
    p = (k, v) ∨ (p ∈ l ∧ ¬ p.1 = k) := by
  induction l with
  | nil => simpa [setF] using h
  | cons q t ih =>
      rw [setF] at h
      rcases List.pairwise_cons.mp hl with ⟨hq1, ht⟩
      by_cases hq : q.1 = k
      · rw [if_pos hq] at h
        rcases List.mem_cons.mp h with rfl | h
        · exact Or.inl rfl
        · refine Or.inr ⟨List.mem_cons_of_mem _ h, ?_⟩
          intro hpk
          exact hq1 p h (by rw [hq, hpk])
      · rw [if_neg hq] at h
        rcases List.mem_cons.mp h with rfl | h
        · exact Or.inr ⟨List.mem_cons_self _ _, hq⟩
        · rcases ih ht h with h | ⟨h1, h2⟩
          · exact Or.inl h
          · exact Or.inr ⟨List.mem_cons_of_mem _ h1, h2⟩

theorem mem_setF_self (k : Option ℤ × String) (v : Finding) :
    ∀ l : List ((Option ℤ × String) × Finding), (k, v) ∈ setF k v l := by
  intro l
  induction l with
  | nil => simp [setF]
  | cons q t ih =>
      rw [setF]
      by_cases hq : q.1 = k
      · rw [if_pos hq]; exact List.mem_cons_self _ _
      · rw [if_neg hq]; exact List.mem_cons_of_mem _ ih

theorem mem_setF_of_ne (k : Option ℤ × String) (v : Finding)
    (l : List ((Option ℤ × String) × Finding)) (p : (Option ℤ × String) × Finding)
    (hp : p ∈ l) (hne : ¬ p.1 = k) : p ∈ setF k v l := by
  induction l with
  | nil => simp at hp
  | cons q t ih =>
      rw [setF]
      rcases List.mem_cons.mp hp with rfl | hp
      · rw [if_neg hne]; exact List.mem_cons_self _ _
      · by_cases hq : q.1 = k
        · rw [if_pos hq]; exact List.mem_cons_of_mem _ hp
        · rw [if_neg hq]; exact List.mem_cons_of_mem _ (ih hp)

theorem pairwise_setF (k : Option ℤ × String) (v : Finding)
    (l : List ((Option ℤ × String) × Finding))
    (hl : l.Pairwise (fun p q => ¬ p.1 = q.1)) :
    (setF k v l).Pairwise (fun p q => ¬ p.1 = q.1) := by
  induction l with
  | nil => simp [setF]
  | cons q t ih =>
      rw [setF]
      rcases List.pairwise_cons.mp hl with ⟨hq1, ht⟩
      by_cases hq : q.1 = k
      · rw [if_pos hq]
        refine List.pairwise_cons.mpr ⟨?_, ht⟩
        intro p hp hpk
        exact hq1 p hp (hq.trans hpk)
      · rw [if_neg hq]
        refine List.pairwise_cons.mpr ⟨?_, ih ht⟩
        intro p hp
        rcases mem_setF k v t p hp with rfl | hp
        · exact hq
        · exact hq1 p hp

theorem lookupF_eq_none (k : Option ℤ × String) :
    ∀ l : List ((Option ℤ × String) × Finding),
      lookupF k l = none → ∀ p ∈ l, ¬ p.1 = k := by
  intro l
  induction l with
  | nil => intro _ p hp; simp at hp
  | cons q t ih =>
      intro h p hp
      rw [lookupF] at h
      by_cases hq : q.1 = k
      · rw [if_pos hq] at h; exact Option.noConfusion h
      · rw [if_neg hq] at h
        rcases List.mem_cons.mp hp with rfl | hp
        · exact hq
        · exact ih h p hp

theorem lookupF_eq_some (k : Option ℤ × String) (b : Finding) :
    ∀ l : List ((Option ℤ × String) × Finding),
      lookupF k l = some b → (k, b) ∈ l := by
  intro l
  induction l with
  | nil => intro h; exact Option.noConfusion h
  | cons q t ih =>
      intro h
      rw [lookupF] at h
      by_cases hq : q.1 = k
      · rw [if_pos hq] at h
        have hb : q.2 = b := Option.some.inj h
        have hqe : q = (k, b) := by
          rcases q with ⟨q1, q2⟩
          rw [Prod.mk.injEq]
          exact ⟨hq, hb⟩
        rw [← hqe]
        exact List.mem_cons_self _ _
      · rw [if_neg hq] at h
        exact List.mem_cons_of_mem _ (ih h)

theorem eq_of_keyed_mem (l : List ((Option ℤ × String) × Finding))
    (hl : l.Pairwise (fun p q => ¬ p.1 = q.1))
    (p q : (Option ℤ × String) × Finding) (hp : p ∈ l) (hq : q ∈ l)
    (hk : p.1 = q.1) : p = q := by
  induction l with
  | nil => simp at hp
  | cons c t ih =>
      rcases List.pairwise_cons.mp hl with ⟨hc, ht⟩
      rcases List.mem_cons.mp hp with hp1 | hp1
      · rcases List.mem_cons.mp hq with hq1 | hq1
        · rw [hp1, hq1]
        · exact absurd (by rw [← hp1]; exact hk) (hc q hq1)
      · rcases List.mem_cons.mp hq with hq1 | hq1
        · exact absurd (by rw [← hq1]; exact hk.symm) (hc p hp1)
        · exact ih ht hp1 hq1

theorem seenOK_update (proc : List Finding)
    (seen : List ((Option ℤ × String) × Finding)) (a : Finding)
    (h : SeenOK proc seen) : SeenOK (proc ++ [a]) (updateSeen seen a) := by
  obtain ⟨h1, h2, h3, h4, h5⟩ := h
  rcases hl : lookupF (fkey a) seen with _ | b
  · rw [updateSeen, hl]
    have hfresh : ∀ p ∈ seen, ¬ p.1 = fkey a := lookupF_eq_none _ _ hl
    refine ⟨pairwise_setF _ _ _ h1, ?_, ?_, ?_, ?_⟩
    · intro p hp
      rcases mem_setF _ _ _ _ hp with rfl | hp
      · rfl
      · exact h2 p hp
    · intro p hp
      rcases mem_setF _ _ _ _ hp with rfl | hp
      · exact List.mem_append.mpr (Or.inr (List.mem_singleton.mpr rfl))
      · exact List.mem_append.mpr (Or.inl (h3 p hp))
    · intro p hp b hb hkb
      rcases mem_setF _ _ _ _ hp with rfl | hp
      · rcases List.mem_append.mp hb with hb | hb
        · exfalso
          rcases h5 b hb with ⟨q, hq, hqk⟩
          apply hfresh q hq
          rw [hqk]
          exact hkb
        · rw [List.mem_singleton.mp hb]
      · rcases List.mem_append.mp hb with hb | hb
        · exact h4 p hp b hb hkb
        · exfalso
          apply hfresh p hp
          rw [← hkb, List.mem_singleton.mp hb]
    · intro b hb
      rcases List.mem_append.mp hb with hb | hb
      · rcases h5 b hb with ⟨q, hq, hqk⟩
        exact ⟨q, mem_setF_of_ne _ _ _ q hq (hfresh q hq), hqk⟩
      · refine ⟨(fkey a, a), mem_setF_self _ _ _, ?_⟩
        rw [List.mem_singleton.mp hb]
  · rw [updateSeen, hl]
    show SeenOK (proc ++ [a])
      (if severity_rank a.severity < severity_rank b.severity then
        setF (fkey a) a seen else seen)
    have hmem : (fkey a, b) ∈ seen := lookupF_eq_some _ _ _ hl
    by_cases hlt : severity_rank a.severity < severity_rank b.severity
    · rw [if_pos hlt]
      refine ⟨pairwise_setF _ _ _ h1, ?_, ?_, ?_, ?_⟩
      · intro p hp
        rcases mem_setF_cases _ _ _ h1 p hp with rfl | ⟨hp, _⟩
        · rfl
        · exact h2 p hp
      · intro p hp
        rcases mem_setF_cases _ _ _ h1 p hp with rfl | ⟨hp, _⟩
        · exact List.mem_append.mpr (Or.inr (List.mem_singleton.mpr rfl))
        · exact List.mem_append.mpr (Or.inl (h3 p hp))
      · intro p hp c hc hkc
        rcases mem_setF_cases _ _ _ h1 p hp with rfl | ⟨hp, hpk⟩
        · rcases List.mem_append.mp hc with hc | hc
          · have hbc : severity_rank b.severity ≤ severity_rank c.severity :=
              h4 (fkey a, b) hmem c hc hkc
            exact le_trans (le_of_lt hlt) hbc
          · rw [List.mem_singleton.mp hc]
        · rcases List.mem_append.mp hc with hc | hc
          · exact h4 p hp c hc hkc
          · exfalso
            apply hpk
            rw [← hkc, List.mem_singleton.mp hc]
      · intro c hc
        rcases List.mem_append.mp hc with hc | hc
        · rcases h5 c hc with ⟨q, hq, hqk⟩
          by_cases hqa : q.1 = fkey a
          · exact ⟨(fkey a, a), mem_setF_self _ _ _, hqa.symm.trans hqk⟩
          · exact ⟨q, mem_setF_of_ne _ _ _ q hq hqa, hqk⟩
        · refine ⟨(fkey a, a), mem_setF_self _ _ _, ?_⟩
          rw [List.mem_singleton.mp hc]
    · rw [if_neg hlt]
      refine ⟨h1, h2, ?_, ?_, ?_⟩
      · intro p hp
        exact List.mem_append.mpr (Or.inl (h3 p hp))
      · intro p hp c hc hkc
        rcases List.mem_append.mp hc with hc | hc
        · exact h4 p hp c hc hkc
        · have hca : c = a := List.mem_singleton.mp hc
          have hpk : p.1 = fkey a := by rw [← hkc, hca]
          have hpe : p = (fkey a, b) :=
            eq_of_keyed_mem seen h1 p (fkey a, b) hp hmem hpk
          rw [hpe, hca]
          exact le_of_not_lt hlt
      · intro c hc
        rcases List.mem_append.mp hc with hc | hc
        · exact h5 c hc
        · refine ⟨(fkey a, b), hmem, ?_⟩
          rw [List.mem_singleton.mp hc]

theorem seenOK_foldl :
    ∀ (l proc : List Finding) (seen : List ((Option ℤ × String) × Finding)),
      SeenOK proc seen → SeenOK (proc ++ l) (l.foldl updateSeen seen) := by
  intro l
  induction l with
  | nil => intro proc seen h; simpa using h
  | cons a t ih =>
      intro proc seen h
      rw [List.foldl_cons]
      have hstep := ih (proc ++ [a]) (updateSeen seen a) (seenOK_update _ _ _ h)
      simpa [List.append_assoc] using hstep

/-- Claim C9: for all detector outputs, the merged statistical anomaly list
has no two entries with the same (account code, detection method) key, every
entry comes from the detectors and has minimal severity rank among the
detector findings with its key (the higher-severity instance is kept), the
list is sorted by severity rank (HIGH before MEDIUM before LOW), and its
length is at most 15.  The detector outputs `z` and `iso` are universally
quantified, so the property holds for every account-reconciliation table. -/
theorem c9_anomaly_merge (z iso : List Finding) :
    (detect_all z iso).Pairwise (fun a b => ¬ fkey a = fkey b)
    ∧ (∀ a ∈ detect_all z iso, a ∈ z ++ iso ∧
        ∀ b ∈ z ++ iso, fkey b = fkey a →
          severity_rank a.severity ≤ severity_rank b.severity)
    ∧ (detect_all z iso).Pairwise
        (fun a b => severity_rank a.severity ≤ severity_rank b.severity)
    ∧ (detect_all z iso).length ≤ 15 := by
  have h0 : SeenOK [] [] := by
    refine ⟨List.Pairwise.nil, ?_, ?_, ?_, ?_⟩ <;> intro p hp <;> simp at hp
  have hOK : SeenOK (z ++ iso) ((z ++ iso).foldl updateSeen []) := by
    have hfold := seenOK_foldl (z ++ iso) [] [] h0
    simpa using hfold
  obtain ⟨h1, h2, h3, h4, _⟩ := hOK
  have hperm :=
    List.perm_insertionSort
      (fun a b => severity_rank a.severity ≤ severity_rank b.severity)
      (((z ++ iso).foldl updateSeen []).map (fun p => p.2))
  have hmap_pw :
      (((z ++ iso).foldl updateSeen []).map (fun p => p.2)).Pairwise
        (fun a b => ¬ fkey a = fkey b) := by
    rw [List.pairwise_map]
    refine List.Pairwise.imp_of_mem (fun {p q} hp hq hne hfe => ?_) h1
    exact hne (by rw [← h2 p hp, ← h2 q hq, hfe])
  have hsort_pw :
      (List.insertionSort
        (fun a b => severity_rank a.severity ≤ severity_rank b.severity)
        (((z ++ iso).foldl updateSeen []).map (fun p => p.2))).Pairwise
        (fun a b => ¬ fkey a = fkey b) :=
    (hperm.pairwise_iff (fun {x y} hxy h' => hxy h'.symm)).mpr hmap_pw
  haveI : IsTotal Finding
      (fun a b => severity_rank a.severity ≤ severity_rank b.severity) :=
    ⟨fun a b => le_total _ _⟩
  haveI : IsTrans Finding
      (fun a b => severity_rank a.severity ≤ severity_rank b.severity) :=
    ⟨fun _ _ _ hab hbc => le_trans hab hbc⟩
  have hsorted :
      (List.insertionSort
        (fun a b => severity_rank a.severity ≤ severity_rank b.severity)
        (((z ++ iso).foldl updateSeen []).map (fun p => p.2))).Pairwise
        (fun a b => severity_rank a.severity ≤ severity_rank b.severity) :=
    List.sorted_insertionSort _ _
  refine ⟨?_, ?_, ?_, ?_⟩
  · exact hsort_pw.sublist (List.take_sublist 15 _)
  · intro a ha
    have ha1 : a ∈ List.insertionSort
        (fun a b => severity_rank a.severity ≤ severity_rank b.severity)
        (((z ++ iso).foldl updateSeen []).map (fun p => p.2)) :=
      (List.take_sublist 15 _).subset ha
    have ha2 : a ∈ ((z ++ iso).foldl updateSeen []).map (fun p => p.2) :=
      hperm.mem_iff.mp ha1
    rcases List.mem_map.mp ha2 with ⟨p, hp, rfl⟩
    refine ⟨h3 p hp, ?_⟩
    intro b hb hkb
    exact h4 p hp b hb (hkb.trans (h2 p hp))
  · exact hsorted.sublist (List.take_sublist 15 _)
  · exact List.length_take_le 15 _

/-- Claim C9 witness: the merge theorem applied to a concrete pair of
findings with the same key: the HIGH one is kept and it is of minimal rank. -/
theorem c9_anomaly_merge_witness :
    findingB ∈ detect_all [findingA, findingB] []
    ∧ findingB ∈ [findingA, findingB] ++ []
    ∧ fkey findingA = fkey findingB
    ∧ severity_rank findingB.severity ≤ severity_rank findingA.severity :=
  have hm : findingB ∈ detect_all [findingA, findingB] [] := by decide
  ⟨hm, by decide, rfl,
    ((c9_anomaly_merge [findingA, findingB] []).2.1 findingB hm).2 findingA
      (by decide) rfl⟩

theorem sampleVar_nonneg (l : List ℚ) (h : 3 ≤ l.length) : 0 ≤ sampleVar l := by
  apply div_nonneg
  · apply List.sum_nonneg
    intro y hy
    rcases List.mem_map.mp hy with ⟨x, _, rfl⟩
    exact sq_nonneg _
  · have h3 : (3 : ℚ) ≤ (l.length : ℚ) := by exact_mod_cast h
    linarith

theorem abs_div_sqrt_gt_iff (v t d : ℝ) (hv : 0 < v) :
    v * t ^ 2 < d ^ 2 ∨ t < 0 ↔ t < |d| / Real.sqrt v := by
  have hs : 0 < Real.sqrt v := Real.sqrt_pos.mpr hv
  rw [lt_div_iff₀ hs]
  constructor
  · rintro (h | h)
    · have h2 : (t * Real.sqrt v) ^ 2 < |d| ^ 2 := by
        have he : (t * Real.sqrt v) ^ 2 = v * t ^ 2 := by
          rw [mul_pow, Real.sq_sqrt hv.le]; ring
        rw [he, sq_abs]
        exact h
      exact lt_of_pow_lt_pow_left₀ 2 (abs_nonneg d) h2
    · exact lt_of_lt_of_le (mul_neg_of_neg_of_pos h hs) (abs_nonneg d)
  · intro h
    by_cases ht : 0 ≤ t
    · left
      have hts : 0 ≤ t * Real.sqrt v := mul_nonneg ht hs.le
      have hsq : (t * Real.sqrt v) * (t * Real.sqrt v) < |d| * |d| :=
        mul_self_lt_mul_self hts h
      have he : (t * Real.sqrt v) * (t * Real.sqrt v) = v * t ^ 2 := by
        have hvv : Real.sqrt v * Real.sqrt v = v := Real.mul_self_sqrt hv.le
        calc (t * Real.sqrt v) * (t * Real.sqrt v)
            = (Real.sqrt v * Real.sqrt v) * (t * t) := by ring
          _ = v * t ^ 2 := by rw [hvv]; ring
      have hd : |d| * |d| = d ^ 2 := by rw [← sq_abs d]; ring
      rw [he, hd] at hsq
      exact hsq
    · right
      exact lt_of_not_le ht

/-- Claim C10: the z-score detector standardizes a variance column with the
sample standard deviation (divisor n − 1, pandas `std()` default `ddof=1`,
the square root of `sampleVar`): for a column with at least 3 non-missing
values and nonzero sample standard deviation, a value is flagged iff
`|value − mean| / √(Σ(x − mean)² / (n − 1))` exceeds the threshold. -/
theorem c10_zscore_sample_std (t : ℚ) (col : List (Option ℚ)) (x : ℚ)
    (h3 : 3 ≤ (col.filterMap id).length)
    (hv : ¬ sampleVar (col.filterMap id) = 0) :
    (x ∈ zscoreOutliers t col ↔
      x ∈ col.filterMap id ∧
        (t : ℝ) < |(x : ℝ) - (mean (col.filterMap id) : ℝ)| /
          Real.sqrt ((sampleVar (col.filterMap id) : ℝ))) := by
  have hnlt : ¬ (col.filterMap id).length < 3 := not_lt.mpr h3
  have hpos : 0 < sampleVar (col.filterMap id) :=
    lt_of_le_of_ne (sampleVar_nonneg _ h3) (Ne.symm hv)
  have hposR : (0 : ℝ) < ((sampleVar (col.filterMap id) : ℚ) : ℝ) := by
    exact_mod_cast hpos
  rw [zscoreOutliers, if_neg hnlt, if_neg hv, List.mem_filter]
  refine and_congr Iff.rfl ?_
  rw [decide_eq_true_eq]
  rw [← abs_div_sqrt_gt_iff _ _ _ hposR]
  constructor
  · rintro (h | h)
    · left; exact_mod_cast h
    · right; exact_mod_cast h
  · rintro (h | h)
    · left; exact_mod_cast h
    · right; exact_mod_cast h

/-- Claim C10 witness: the characterization applied to the concrete column
[0, 0, 12] (mean 4, sample variance 48) with threshold 1 at value 12. -/
theorem c10_zscore_sample_std_witness :
    3 ≤ (([some 0, some 0, some 12] : List (Option ℚ)).filterMap id).length
    ∧ ¬ sampleVar (([some 0, some 0, some 12] : List (Option ℚ)).filterMap id) = 0
    ∧ ((12 : ℚ) ∈ zscoreOutliers 1 [some 0, some 0, some 12] ↔
        (12 : ℚ) ∈ ([some 0, some 0, some 12] : List (Option ℚ)).filterMap id ∧
          ((1 : ℚ) : ℝ) <
            |((12 : ℚ) : ℝ) -
                (mean (([some 0, some 0, some 12] :
                  List (Option ℚ)).filterMap id) : ℝ)| /
              Real.sqrt ((sampleVar (([some 0, some 0, some 12] :
                List (Option ℚ)).filterMap id) : ℝ))) :=
  ⟨by decide,
   by norm_num [sampleVar, mean, List.filterMap_cons, List.filterMap_nil],
   c10_zscore_sample_std 1 [some 0, some 0, some 12] 12 (by decide)
     (by norm_num [sampleVar, mean, List.filterMap_cons, List.filterMap_nil])⟩

/-- Claim C8: the linear forecast called with fewer than 3 monthly rows
returns the explicit error marker (a checkable error value, not an
exception — the model function is total), and every projected forecast
value in a successful result is ≥ 0. -/
theorem c8_forecast_guard_and_nonneg :
    (∀ (monthly : List MonthlyRow) (target : MonthlyRow → ℚ) (p : ℕ),
        monthly.length < 3 →
        forecast_linear monthly target p =
          Except.error "Insufficient data (need at least 3 months)")
    ∧ (∀ (monthly : List MonthlyRow) (target : MonthlyRow → ℚ) (p : ℕ)
        (out : ForecastData),
        forecast_linear monthly target p = Except.ok out →
        ∀ mv ∈ out.forecastVals, 0 ≤ mv.2) := by
  constructor
  · intro monthly target p h
    rw [forecast_linear, if_pos h]
  · intro monthly target p out h mv hmv
    rw [forecast_linear] at h
    by_cases hlt : monthly.length < 3
    · rw [if_pos hlt] at h
      exact absurd h (fun hc => Except.noConfusion hc)
    · rw [if_neg hlt] at h
      have hout := (Except.ok.injEq _ _).mp h
      rw [← hout] at hmv
      rcases List.mem_map.mp hmv with ⟨j, _, rfl⟩
      exact le_max_left 0 _

/-- Claim C8 witness: the guard applied to the empty table and the
nonnegativity bound applied to the forecast on `sampleMonthly`. -/
theorem c8_forecast_guard_and_nonneg_witness :
    (([] : List MonthlyRow).length < 3
      ∧ forecast_linear [] (fun r => r.total_abs_variance) 1 =
          Except.error "Insufficient data (need at least 3 months)")
    ∧ (forecast_linear sampleMonthly (fun r => r.total_abs_variance) 1 =
          Except.ok sampleOut
      ∧ ∀ mv ∈ sampleOut.forecastVals, 0 ≤ mv.2) := by
  have hne : ¬ sampleMonthly.length < 3 := by decide
  have hok : forecast_linear sampleMonthly (fun r => r.total_abs_variance) 1 =
      Except.ok sampleOut := by
    show forecast_linear sampleMonthly (fun r => r.total_abs_variance) 1 =
      Except.ok (match forecast_linear sampleMonthly
        (fun r => r.total_abs_variance) 1 with
        | Except.ok r => r
        | Except.error _ => { historical := [], forecastVals := []
                              trend_direction := "", slope := 0, r_squared := 0 })
    rw [forecast_linear, if_neg hne]
  exact ⟨⟨by decide, c8_forecast_guard_and_nonneg.1 [] _ 1 (by decide)⟩,
    hok, c8_forecast_guard_and_nonneg.2 sampleMonthly _ 1 sampleOut hok⟩

/-- Claim C3: on well-typed but empty inputs no core operation fails (each
model function is total, as the Python is exception-free here) and each
degrades to zero-valued or empty results: cleaning, account-level
reconciliation, the variance summary, z-score and merged anomaly detection,
monthly aggregation, and the forecast (whose error marker is a value, not
an exception). -/
theorem c3_empty_inputs_graceful :
    clean_manual_data [] = Except.ok []
    ∧ clean_daftra_data [] = Except.ok []
    ∧ (∀ tol : ℚ, reconcile_coa_level tol [] [] = [])
    ∧ (generate_variance_summary []).total_coa_accounts = 0
    ∧ (generate_variance_summary []).matched_count = 0
    ∧ (generate_variance_summary []).tolerance_count = 0
    ∧ (generate_variance_summary []).variance_count = 0
    ∧ (generate_variance_summary []).unmatched_manual = 0
    ∧ (generate_variance_summary []).unmatched_daftra = 0
    ∧ (generate_variance_summary []).total_net_variance = 0
    ∧ (generate_variance_summary []).largest_variance_coa = none
    ∧ (generate_variance_summary []).largest_variance_amount = 0
    ∧ (∀ t : ℚ, zscoreOutliers t [] = [])
    ∧ detect_all [] [] = []
    ∧ aggregate_monthly [] [] = []
    ∧ (∀ (target : MonthlyRow → ℚ) (p : ℕ),
        forecast_linear [] target p =
          Except.error "Insufficient data (need at least 3 months)") :=
  ⟨rfl, rfl, fun _ => rfl, rfl, rfl, rfl, rfl, rfl, rfl, rfl, rfl, rfl,
    fun _ => rfl, rfl, rfl, fun _ _ => rfl⟩

/-- Claim C6 counterexample: the checksum input concatenates the four
fields with no separator (config.py line 48), so the distinct entries
("A", "B") and ("AB", "") produce the identical content string and hence
identical checksums — two entries differing in two fields share a checksum. -/
theorem c6_checksum_not_injective :
    ¬ entryA.timestamp = entryB.timestamp
    ∧ ¬ entryA = entryB
    ∧ checksum entryA = checksum entryB :=
  ⟨by decide, by decide,
    congrArg (fun s => (sha256hex s).take 16)
      (by decide : auditContent entryA = auditContent entryB)⟩

/-- Claim C6 (amended): the checksum is a pure deterministic function of
the four fields — entries with identical timestamp, action, details and
user always have identical checksums.  The converse (distinct entries have
distinct checksums) is dropped: it fails because the unseparated
concatenation is not injective (see the counterexample), and no 64-bit
truncated digest could be injective on unbounded inputs. -/
theorem c6_checksum_deterministic (e1 e2 : AuditLogEntry)
    (h1 : e1.timestamp = e2.timestamp) (h2 : e1.action = e2.action)
    (h3 : e1.details = e2.details) (h4 : e1.user = e2.user) :
    checksum e1 = checksum e2 := by
  have hc : auditContent e1 = auditContent e2 := by
    rw [auditContent, auditContent, h1, h2, h3, h4]
  rw [checksum, checksum, hc]

/-- Claim C6 witness: determinism applied to two structurally equal
concrete entries. -/
theorem c6_checksum_deterministic_witness :
    entryA.timestamp = entryA.timestamp ∧ entryA.action = entryA.action
    ∧ entryA.details = entryA.details ∧ entryA.user = entryA.user
    ∧ checksum entryA = checksum entryA :=
  ⟨rfl, rfl, rfl, rfl, c6_checksum_deterministic entryA entryA rfl rfl rfl rfl⟩
